import Mathlib

/-!
Verification of the family-talks repository core: the role-permission table
(`src/utils/RolePermissions.ts`), the member-directory operations of
`AuthService` (`src/services/AuthService.ts`), the admin-action log, and the
message store (`StorageService.addMessage` and the ChatScreen send/filter
logic).

Modelling conventions:
* TypeScript string-union values (`FamilyRole`, `AdminOperation`) are embedded
  as `String`, mirroring their runtime representation; the switch statements
  and `===` comparisons of the source become string comparisons.
* `Date` values are embedded as `Nat` timestamps.
* The nondeterministic generators (`generateUserId`, `generateActionId`,
  `getDeviceId`, `new Date()`) are passed in explicitly through a `Gen`
  record.
* The AsyncStorage-backed state (family code, member list, current user,
  admin actions, family settings) is an explicit `AuthState` record; each
  service method becomes a pure function from the old state (plus arguments)
  to a result together with the new state.
* `TS Partial<FamilyMember>` updates are embedded as a record of `Option`
  fields, `none` meaning the key is absent from the update object.
-/

namespace FamilyTalks

/-- Permission set of `src/types/Message.ts` (`RolePermissions`): eight
independent boolean capabilities. -/
structure RolePermissions where
  canAddMembers : Bool
  canRemoveMembers : Bool
  canEditMembers : Bool
  canManageSettings : Bool
  canModerateContent : Bool
  canViewAnalytics : Bool
  canManageBackup : Bool
  canInviteGuests : Bool
deriving Repr, DecidableEq

/-- Embedding of `getRolePermissions` from `src/utils/RolePermissions.ts`:
a switch over the role string, with the `other` case falling through to
the default case (both return the all-false record). -/
def getRolePermissions (role : String) : RolePermissions :=
  if role = "admin" then
    { canAddMembers := true
      canRemoveMembers := true
      canEditMembers := true
      canManageSettings := true
      canModerateContent := true
      canViewAnalytics := true
      canManageBackup := true
      canInviteGuests := true }
  else if role = "parent" then
    { canAddMembers := true
      canRemoveMembers := false
      canEditMembers := true
      canManageSettings := false
      canModerateContent := true
      canViewAnalytics := true
      canManageBackup := false
      canInviteGuests := true }
  else if role = "grandparent" then
    { canAddMembers := false
      canRemoveMembers := false
      canEditMembers := false
      canManageSettings := false
      canModerateContent := false
      canViewAnalytics := true
      canManageBackup := false
      canInviteGuests := false }
  else if role = "child" then
    { canAddMembers := false
      canRemoveMembers := false
      canEditMembers := false
      canManageSettings := false
      canModerateContent := false
      canViewAnalytics := false
      canManageBackup := false
      canInviteGuests := false }
  else
    -- the other case and the default case share this return in the source
    { canAddMembers := false
      canRemoveMembers := false
      canEditMembers := false
      canManageSettings := false
      canModerateContent := false
      canViewAnalytics := false
      canManageBackup := false
      canInviteGuests := false }

/-- Embedding of `hasPermission` from `src/utils/RolePermissions.ts`; the
`keyof RolePermissions` key is embedded as the corresponding projection. -/
def hasPermission (userRole : String) (permission : RolePermissions → Bool) : Bool :=
  permission (getRolePermissions userRole)

/-- Embedding of `isAdmin` from `src/utils/RolePermissions.ts`. -/
def isAdmin (userRole : String) : Bool :=
  userRole == "admin"

/-- Embedding of `canManageMembers` from `src/utils/RolePermissions.ts`. -/
def canManageMembers (userRole : String) : Bool :=
  hasPermission userRole (fun p => p.canAddMembers) ||
  hasPermission userRole (fun p => p.canRemoveMembers) ||
  hasPermission userRole (fun p => p.canEditMembers)

/-- Embedding of `canChangeRole` from `src/utils/RolePermissions.ts`. -/
def canChangeRole (currentRole newRole adminRole : String) : Bool :=
  if adminRole ≠ "admin" then
    false
  else if currentRole = "admin" ∧ newRole ≠ "admin" then
    false
  else if newRole = "admin" then
    false
  else
    true

/-- Spec-side definition, written from the words of spec section 4.1 only:
the canonical role-permission table (rows administrator, parent, grandparent,
child, other), with every capability false for any role value outside the
five-member enumeration. -/
def specPermissionTable (role : String) : RolePermissions :=
  if role = "admin" then
    -- administrator row: every capability granted
    { canAddMembers := true, canRemoveMembers := true, canEditMembers := true
      canManageSettings := true, canModerateContent := true
      canViewAnalytics := true, canManageBackup := true, canInviteGuests := true }
  else if role = "parent" then
    -- parent row: add 1, remove 0, edit 1, settings 0, moderate 1, analytics 1, backup 0, guests 1
    { canAddMembers := true, canRemoveMembers := false, canEditMembers := true
      canManageSettings := false, canModerateContent := true
      canViewAnalytics := true, canManageBackup := false, canInviteGuests := true }
  else if role = "grandparent" then
    -- grandparent row: analytics only
    { canAddMembers := false, canRemoveMembers := false, canEditMembers := false
      canManageSettings := false, canModerateContent := false
      canViewAnalytics := true, canManageBackup := false, canInviteGuests := false }
  else if role = "child" then
    -- child row: nothing granted
    { canAddMembers := false, canRemoveMembers := false, canEditMembers := false
      canManageSettings := false, canModerateContent := false
      canViewAnalytics := false, canManageBackup := false, canInviteGuests := false }
  else if role = "other" then
    -- other row: nothing granted
    { canAddMembers := false, canRemoveMembers := false, canEditMembers := false
      canManageSettings := false, canModerateContent := false
      canViewAnalytics := false, canManageBackup := false, canInviteGuests := false }
  else
    -- unrecognized role: most restrictive set, every capability false
    { canAddMembers := false, canRemoveMembers := false, canEditMembers := false
      canManageSettings := false, canModerateContent := false
      canViewAnalytics := false, canManageBackup := false, canInviteGuests := false }

/-- Family member record of `src/types/Message.ts` (`FamilyMember`);
`Date` fields are embedded as `Nat` timestamps. -/
structure FamilyMember where
  id : String
  name : String
  avatar : Option String := none
  isOnline : Bool
  lastSeen : Nat
  deviceId : String
  role : String
  email : Option String := none
  phone : Option String := none
  joinedAt : Nat
  isActive : Bool
  permissions : RolePermissions
deriving Repr, DecidableEq

/-- Admin action log entry of `src/types/Message.ts` (`AdminAction`);
the `AdminOperation` string union is embedded as `String` and the unused
optional `metadata` field is omitted. -/
structure AdminAction where
  id : String
  adminId : String
  targetMemberId : Option String := none
  operation : String
  details : String
  timestamp : Nat
deriving Repr, DecidableEq

/-- Family settings record of `src/types/Message.ts` (`FamilySettings`). -/
structure FamilySettings where
  familyName : String
  allowGuestInvites : Bool
  messageRetentionDays : Nat
  requireApprovalForJoining : Bool
  maxMembers : Nat
  autoArchiveOldChats : Bool
  emergencyContacts : List String
deriving Repr, DecidableEq

/-- The AsyncStorage-backed state read and written by `AuthService`:
the stored family code (absent until `createFamily`), the member collection,
the current user, the admin action log and the family settings. -/
structure AuthState where
  familyCode : Option String := none
  familyMembers : List FamilyMember := []
  currentUser : Option FamilyMember := none
  adminActions : List AdminAction := []
  familySettings : Option FamilySettings := none
deriving Repr, DecidableEq

/-- The state of a device before any family is created: every storage key
is absent. -/
def emptyState : AuthState := {}

/-- Outputs of the nondeterministic generators `generateUserId`,
`generateActionId`, `getDeviceId` and `new Date()`, passed explicitly. -/
structure Gen where
  userId : String
  actionId : String
  deviceId : String
  now : Nat
deriving Repr, DecidableEq

/-- Typed failures of the `AuthService` operations, one per distinct throw
site (the `null` return of `authenticateFamilyMember` on a code mismatch is
the invalid-family-code failure). -/
inductive AuthErr where
  | invalidFamilyCode
  | familyAlreadyExists
  | insufficientPermissions
  | memberNotFound
  | duplicateMember
  | cannotChangeAdminRole
  | cannotRemoveAdmin
  | cannotRemoveSelf
deriving Repr, DecidableEq

/-- Embedding of the private `logAdminAction` of `src/services/AuthService.ts`
as a function on the stored action list: build the new entry (with `details`
defaulting to the empty string),
push it, and when the list now exceeds 100 entries keep only `slice(-100)`,
the last 100. -/
def logAdminAction (actions : List AdminAction) (adminId operation : String)
    (targetMemberId : Option String) (details : Option String)
    (actionId : String) (now : Nat) : List AdminAction :=
  let newAction : AdminAction :=
    { id := actionId
      adminId := adminId
      targetMemberId := targetMemberId
      operation := operation
      details := details.getD ""
      timestamp := now }
  let acts := actions ++ [newAction]
  if acts.length > 100 then acts.drop (acts.length - 100) else acts

/-- Helper for the mutate-the-found-object pattern of
`authenticateFamilyMember`: `find` the first member whose lowercased name
matches, set `lastSeen` and `isOnline` on that object in place, and report
the updated member (`none` when no name matches). -/
def updateFirstByName (memberName : String) (now : Nat) :
    List FamilyMember → Option FamilyMember × List FamilyMember
  | [] => (none, [])
  | m :: rest =>
    if m.name.toLower == memberName.toLower then
      let updated := { m with lastSeen := now, isOnline := true }
      (some updated, updated :: rest)
    else
      let r := updateFirstByName memberName now rest
      (r.1, m :: r.2)

/-- Helper for the `findIndex` / `familyMembers[memberIndex] = updatedMember`
pattern of `editFamilyMember` and `changeMemberRole`: replace the first
member carrying the given id. -/
def setFirstById (memberId : String) (newMember : FamilyMember) :
    List FamilyMember → List FamilyMember
  | [] => []
  | m :: rest =>
    if m.id == memberId then newMember :: rest
    else m :: setFirstById memberId newMember rest

/-- Embedding of `AuthService.authenticateFamilyMember`: a stored-code
mismatch (including an absent stored code) returns `null` before anything is
written; otherwise the first case-insensitive name match is marked online
with a fresh last-seen and saved, and when no name matches a new member with
the `other` role and its default permissions is appended. -/
def authenticateFamilyMember (st : AuthState) (familyCode memberName : String)
    (gen : Gen) : Option FamilyMember × AuthState :=
  if st.familyCode ≠ some familyCode then
    (none, st)
  else
    let found := updateFirstByName memberName gen.now st.familyMembers
    match found.1 with
    | some existingUser =>
      (some existingUser,
       { st with familyMembers := found.2, currentUser := some existingUser })
    | none =>
      let newMember : FamilyMember :=
        { id := gen.userId
          name := memberName
          isOnline := true
          lastSeen := gen.now
          deviceId := gen.deviceId
          role := "other"
          joinedAt := gen.now
          isActive := true
          permissions := getRolePermissions "other" }
      (some newMember,
       { st with familyMembers := st.familyMembers ++ [newMember]
                 currentUser := some newMember })

/-- Embedding of `AuthService.createFamily`: fails when a family code is
already persisted; otherwise stores the code, creates the single member with
the `admin` role, and writes the default family settings. -/
def createFamily (st : AuthState) (familyCode memberName : String) (gen : Gen) :
    Except AuthErr FamilyMember × AuthState :=
  match st.familyCode with
  | some _ => (.error .familyAlreadyExists, st)
  | none =>
    let adminMember : FamilyMember :=
      { id := gen.userId
        name := memberName
        isOnline := true
        lastSeen := gen.now
        deviceId := gen.deviceId
        role := "admin"
        joinedAt := gen.now
        isActive := true
        permissions := getRolePermissions "admin" }
    let defaultSettings : FamilySettings :=
      { familyName := memberName ++ "\x27s Family"
        allowGuestInvites := false
        messageRetentionDays := 365
        requireApprovalForJoining := false
        maxMembers := 20
        autoArchiveOldChats := true
        emergencyContacts := [] }
    (.ok adminMember,
     { st with familyCode := some familyCode
               familyMembers := [adminMember]
               currentUser := some adminMember
               familySettings := some defaultSettings })

/-- Embedding of `AuthService.addFamilyMember`: permission check, then a
case-insensitive duplicate-name check, then append the new inactive-device
member and log an `add_member` action. -/
def addFamilyMember (st : AuthState) (adminUser : FamilyMember)
    (memberName role : String) (email phone : Option String) (gen : Gen) :
    Except AuthErr FamilyMember × AuthState :=
  if !(hasPermission adminUser.role (fun p => p.canAddMembers)) then
    (.error .insufficientPermissions, st)
  else if (st.familyMembers.find?
      (fun m => m.name.toLower == memberName.toLower)).isSome then
    (.error .duplicateMember, st)
  else
    let newMember : FamilyMember :=
      { id := gen.userId
        name := memberName
        isOnline := false
        lastSeen := gen.now
        deviceId := ""
        role := role
        email := email
        phone := phone
        joinedAt := gen.now
        isActive := true
        permissions := getRolePermissions role }
    let members := st.familyMembers ++ [newMember]
    let actions := logAdminAction st.adminActions adminUser.id "add_member"
      (some newMember.id)
      (some ("Added new family member: " ++ memberName ++ " with role: " ++ role))
      gen.actionId gen.now
    (.ok newMember, { st with familyMembers := members, adminActions := actions })

/-- Partial member update of `editFamilyMember` (`Partial<FamilyMember>`):
`none` means the key is absent from the update object. -/
structure MemberUpdate where
  id : Option String := none
  name : Option String := none
  avatar : Option String := none
  isOnline : Option Bool := none
  lastSeen : Option Nat := none
  deviceId : Option String := none
  role : Option String := none
  email : Option String := none
  phone : Option String := none
  joinedAt : Option Nat := none
  isActive : Option Bool := none
  permissions : Option RolePermissions := none
deriving Repr, DecidableEq

/-- The JavaScript spread of the member record and then the update object:
every key present in the update object overwrites the corresponding member
field. -/
def applyUpdate (member : FamilyMember) (u : MemberUpdate) : FamilyMember :=
  { id := u.id.getD member.id
    name := u.name.getD member.name
    avatar := match u.avatar with | some a => some a | none => member.avatar
    isOnline := u.isOnline.getD member.isOnline
    lastSeen := u.lastSeen.getD member.lastSeen
    deviceId := u.deviceId.getD member.deviceId
    role := u.role.getD member.role
    email := match u.email with | some e => some e | none => member.email
    phone := match u.phone with | some p => some p | none => member.phone
    joinedAt := u.joinedAt.getD member.joinedAt
    isActive := u.isActive.getD member.isActive
    permissions := u.permissions.getD member.permissions }

/-- The JavaScript truthiness of `updates.role`: present and not the empty
string (an empty string is falsy). -/
def roleTruthy (u : MemberUpdate) : Bool :=
  match u.role with
  | some r => r ≠ ""
  | none => false

/-- Embedding of `AuthService.editFamilyMember`: permission check, member
lookup, the guard `updates.role && member.role === "admin" &&
memberId !== adminUser.id`, then the spread update with `permissions:
updates.role ? getRolePermissions(updates.role) : member.permissions`
written last, and an unconditional `edit_member` log entry. -/
def editFamilyMember (st : AuthState) (adminUser : FamilyMember)
    (memberId : String) (updates : MemberUpdate) (gen : Gen) :
    Except AuthErr FamilyMember × AuthState :=
  if !(hasPermission adminUser.role (fun p => p.canEditMembers)) then
    (.error .insufficientPermissions, st)
  else
    match st.familyMembers.find? (fun m => m.id == memberId) with
    | none => (.error .memberNotFound, st)
    | some member =>
      if roleTruthy updates && member.role == "admin" && memberId != adminUser.id then
        (.error .cannotChangeAdminRole, st)
      else
        let updatedMember : FamilyMember :=
          { applyUpdate member updates with
            permissions :=
              if roleTruthy updates then getRolePermissions (updates.role.getD "")
              else member.permissions }
        let members := setFirstById memberId updatedMember st.familyMembers
        let actions := logAdminAction st.adminActions adminUser.id "edit_member"
          (some memberId) (some ("Edited family member: " ++ member.name))
          gen.actionId gen.now
        (.ok updatedMember,
         { st with familyMembers := members, adminActions := actions })

/-- Embedding of `AuthService.removeFamilyMember`: permission check, member
lookup, then — in this order — the admin-target guard and the self-target
guard, then removal of every member carrying the id and a `remove_member`
log entry. -/
def removeFamilyMember (st : AuthState) (adminUser : FamilyMember)
    (memberId : String) (gen : Gen) : Except AuthErr Unit × AuthState :=
  if !(hasPermission adminUser.role (fun p => p.canRemoveMembers)) then
    (.error .insufficientPermissions, st)
  else
    match st.familyMembers.find? (fun m => m.id == memberId) with
    | none => (.error .memberNotFound, st)
    | some member =>
      if member.role == "admin" then
        (.error .cannotRemoveAdmin, st)
      else if memberId == adminUser.id then
        (.error .cannotRemoveSelf, st)
      else
        let updatedMembers := st.familyMembers.filter (fun m => m.id != memberId)
        let actions := logAdminAction st.adminActions adminUser.id "remove_member"
          (some memberId) (some ("Removed family member: " ++ member.name))
          gen.actionId gen.now
        (.ok (),
         { st with familyMembers := updatedMembers, adminActions := actions })

/-- Embedding of `AuthService.changeMemberRole`: permission check, member
lookup, the current-role-is-admin guard, then the role and permission
rewrite and a `change_role` log entry. The `canChangeRole` helper of
`RolePermissions.ts` is never consulted here, exactly as in the source. -/
def changeMemberRole (st : AuthState) (adminUser : FamilyMember)
    (memberId newRole : String) (gen : Gen) :
    Except AuthErr FamilyMember × AuthState :=
  if !(hasPermission adminUser.role (fun p => p.canEditMembers)) then
    (.error .insufficientPermissions, st)
  else
    match st.familyMembers.find? (fun m => m.id == memberId) with
    | none => (.error .memberNotFound, st)
    | some member =>
      if member.role == "admin" then
        (.error .cannotChangeAdminRole, st)
      else
        let updatedMember : FamilyMember :=
          { member with role := newRole, permissions := getRolePermissions newRole }
        let members := setFirstById memberId updatedMember st.familyMembers
        let actions := logAdminAction st.adminActions adminUser.id "change_role"
          (some memberId)
          (some ("Changed role of " ++ member.name ++ " from " ++ member.role ++
                 " to " ++ newRole))
          gen.actionId gen.now
        (.ok updatedMember,
         { st with familyMembers := members, adminActions := actions })

/-- Message type tag of `src/types/Message.ts` (`MessageType`). -/
inductive MessageType where
  | text
  | image
  | voice
  | file
  | location
deriving Repr, DecidableEq

/-- Delivery status of `src/types/Message.ts` (`MessageStatus`). -/
inductive MessageStatus where
  | sending
  | sent
  | delivered
  | read
  | failed
deriving Repr, DecidableEq

/-- Runtime message object. The declared `Message` interface of
`src/types/Message.ts` requires `status : MessageStatus` and
`isEncrypted : boolean` and has no `chatId` key, but the object literal that
`ChatScreen.sendMessage` actually constructs omits `status` and
`isEncrypted` and adds `chatId`; the three fields are therefore embedded as
`Option` values, `none` meaning the key is absent on the runtime object. -/
structure Message where
  id : String
  senderId : String
  receiverId : String
  content : String
  type : MessageType
  timestamp : Nat
  status : Option MessageStatus := none
  isEncrypted : Option Bool := none
  chatId : Option String := none
deriving Repr, DecidableEq

/-- Embedding of `StorageService.addMessage`: read the whole stored
collection, push the new message, write the whole collection back. -/
def addMessage (messages : List Message) (message : Message) : List Message :=
  messages ++ [message]

/-- Executable embedding of JavaScript `String.prototype.trim` (strip
leading and trailing whitespace); written over the character list so that
it reduces inside the kernel. -/
def jsTrim (s : String) : String :=
  ⟨((s.data.dropWhile Char.isWhitespace).reverse.dropWhile
      Char.isWhitespace).reverse⟩

/-- Embedding of `ChatScreen.sendMessage` (the in-app send): bail out when
the trimmed input is empty or no current user is loaded; otherwise build the
message object literal of the source — fresh id, trimmed content, sender =
current user, receiver = the `memberId` route parameter, type `text`,
`chatId` falling back to a generated chat identifier, and no `status` or
`isEncrypted` key — and
persist it with `StorageService.addMessage`. -/
def sendMessage (messages : List Message) (currentUser : Option FamilyMember)
    (memberId : String) (chatId : Option String) (newMessage : String)
    (msgId : String) (now : Nat) : Option Message × List Message :=
  if jsTrim newMessage = "" then
    (none, messages)
  else
    match currentUser with
    | none => (none, messages)
    | some user =>
      let message : Message :=
        { id := msgId
          content := jsTrim newMessage
          senderId := user.id
          receiverId := memberId
          timestamp := now
          type := MessageType.text
          chatId := some (match chatId with
            | some c => if c ≠ "" then c else "chat_" ++ user.id ++ "_" ++ memberId
            | none => "chat_" ++ user.id ++ "_" ++ memberId) }
      (some message, addMessage messages message)

/-- Embedding of the `memberId` branch of `ChatScreen.loadChatData`: filter
the whole stored collection for messages between the current user and the
given member, in either direction. -/
def loadChatMessagesWith (allMessages : List Message)
    (memberId userId : String) : List Message :=
  allMessages.filter (fun msg =>
    (msg.senderId == memberId && msg.receiverId == userId) ||
    (msg.senderId == userId && msg.receiverId == memberId))

/-- The denormalization invariant of spec section 3: the permission set of
every stored member equals the canonical mapping for the current role of
that member. -/
def permsConsistent (members : List FamilyMember) : Prop :=
  ∀ m ∈ members, m.permissions = getRolePermissions m.role

/-- Concrete administrator used by the example scenarios (Alice of the spec
scenario, who created the family). -/
def exAlice : FamilyMember :=
  { id := "alice-id"
    name := "Alice"
    isOnline := true
    lastSeen := 0
    deviceId := "device_0"
    role := "admin"
    joinedAt := 0
    isActive := true
    permissions := getRolePermissions "admin" }

/-- Concrete child member used by the example scenarios (Bob of the spec
scenario, added by the administrator). -/
def exBob : FamilyMember :=
  { id := "bob-id"
    name := "Bob"
    isOnline := false
    lastSeen := 0
    deviceId := ""
    role := "child"
    joinedAt := 0
    isActive := true
    permissions := getRolePermissions "child" }

/-- Concrete generator outputs used by the example scenarios. -/
def exGen : Gen :=
  { userId := "user_1", actionId := "action_1", deviceId := "device_1", now := 7 }

/-- Concrete stored state used by the example scenarios: family `FAM123`
with administrator Alice and child Bob, an empty admin-action log. -/
def exState : AuthState :=
  { familyCode := some "FAM123", familyMembers := [exAlice, exBob] }

/-- Concrete message produced by the example send: the exact object literal
`ChatScreen.sendMessage` builds for sender Alice, receiver `bob-id`,
content `"hi"`, no route `chatId`. -/
def exMsg : Message :=
  { id := "m1"
    senderId := "alice-id"
    receiverId := "bob-id"
    content := "hi"
    type := MessageType.text
    timestamp := 5
    chatId := some "chat_alice-id_bob-id" }

deriving instance DecidableEq for Except

/-! Theorems. -/

/-- C1: for every role in the five-member enumeration, `getRolePermissions`
returns exactly the eight-capability row of the canonical table in spec
section 4.1, and for any role value outside the enumeration it returns the
set with every capability false. -/
theorem getRolePermissions_matches_spec_table (role : String) :
    getRolePermissions role = specPermissionTable role := by
  unfold getRolePermissions specPermissionTable
  split_ifs <;> rfl

/-- C4: `logAdminAction` yields exactly the last 100 entries of the old log
with the new entry appended (the whole appended list when it has at most 100
entries), and the resulting log never exceeds 100 entries. -/
theorem logAdminAction_keeps_last_100 (actions : List AdminAction)
    (adminId operation : String) (targetMemberId : Option String)
    (details : Option String) (actionId : String) (now : Nat) :
    logAdminAction actions adminId operation targetMemberId details actionId now =
      (actions ++ [({ id := actionId, adminId := adminId
                      targetMemberId := targetMemberId, operation := operation
                      details := details.getD "", timestamp := now } :
                    AdminAction)]).drop
        (actions.length + 1 - 100) ∧
    (logAdminAction actions adminId operation targetMemberId details actionId
      now).length ≤ 100 := by
  unfold logAdminAction
  simp only [List.length_append, List.length_cons, List.length_nil]
  constructor
  · split
    · rfl
    · next h =>
      have hz : actions.length + 1 - 100 = 0 := by omega
      rw [hz, List.drop_zero]
  · split
    · next h =>
      simp only [List.length_drop, List.length_append, List.length_cons,
        List.length_nil] at *
      omega
    · next h =>
      simp only [List.length_append, List.length_cons, List.length_nil] at *
      omega

/-- C5: `authenticateFamilyMember` with a supplied code different from the
stored one fails (the invalid-family-code `null` return) and leaves the
whole stored state — in particular the member collection — unchanged. -/
theorem authenticate_wrong_code_unchanged (st : AuthState)
    (familyCode memberName : String) (gen : Gen)
    (h : st.familyCode ≠ some familyCode) :
    authenticateFamilyMember st familyCode memberName gen = (none, st) := by
  unfold authenticateFamilyMember
  rw [if_pos h]

/-- Witness for C5 at the concrete spec scenario: stored code `FAM123`,
supplied code `WRONG`. -/
theorem authenticate_wrong_code_unchanged_witness :
    exState.familyCode ≠ some "WRONG" ∧
    authenticateFamilyMember exState "WRONG" "Alice" exGen = (none, exState) :=
  ⟨by decide, authenticate_wrong_code_unchanged exState "WRONG" "Alice" exGen
    (by decide)⟩

/-- C9: the member-chat filter returns exactly the stored messages whose
unordered pair of sender and receiver identities equals the unordered pair
of the two chat identities — both directions included, every other pair
excluded — in stored (insertion) order: it equals the order-preserving
filter by that pair condition, and the boolean pair condition is exactly
the unordered-pair equation. -/
theorem loadChat_filters_unordered_pair (msgs : List Message) (a b : String) :
    loadChatMessagesWith msgs a b =
      msgs.filter (fun m =>
        decide ((m.senderId = a ∧ m.receiverId = b) ∨
                (m.senderId = b ∧ m.receiverId = a))) ∧
    ∀ m : Message,
      ((m.senderId = a ∧ m.receiverId = b) ∨
       (m.senderId = b ∧ m.receiverId = a)) ↔
        ({m.senderId, m.receiverId} : Set String) = {a, b} := by
  constructor
  · unfold loadChatMessagesWith
    refine List.filter_congr ?_
    intro m _
    rw [Bool.eq_iff_iff]
    simp only [Bool.or_eq_true, Bool.and_eq_true, beq_iff_eq, decide_eq_true_eq]
  · intro m
    exact Set.pair_eq_pair_iff.symm

/-- C10: `changeMemberRole` does not prevent promotion to administrator:
the administrator Alice successfully changes the role of child Bob to the
`admin` value,
leaving two members holding the administrator role — even though
`canChangeRole`, which `changeMemberRole` never consults, returns `false`
whenever the new role is `admin`. -/
theorem changeMemberRole_allows_admin_promotion :
    (changeMemberRole exState exAlice "bob-id" "admin" exGen).1 =
      Except.ok { exBob with role := "admin"
                             permissions := getRolePermissions "admin" } ∧
    ((changeMemberRole exState exAlice "bob-id" "admin"
        exGen).2.familyMembers.filter (fun m => m.role == "admin")).length = 2 ∧
    ∀ currentRole adminRole : String,
      canChangeRole currentRole "admin" adminRole = false := by
  refine ⟨by decide, by decide, ?_⟩
  intro currentRole adminRole
  unfold canChangeRole
  simp

/-- Counterexample to C2 as stated: with the single stored member being the
administrator Alice herself, `removeFamilyMember` called by Alice with her
own identifier fails with the cannot-remove-admin error — the admin-target
guard runs before the self guard — and not with cannot-remove-self. -/
theorem removeSelf_admin_counterexample :
    (removeFamilyMember { familyCode := some "FAM123"
                          familyMembers := [exAlice] }
      exAlice "alice-id" exGen).1 = Except.error AuthErr.cannotRemoveAdmin ∧
    (removeFamilyMember { familyCode := some "FAM123"
                          familyMembers := [exAlice] }
      exAlice "alice-id" exGen).1 ≠ Except.error AuthErr.cannotRemoveSelf := by
  exact ⟨by decide, by decide⟩

/-- C2 amended: a self-targeted `removeFamilyMember` by an actor holding the
remove capability never succeeds and never changes the state; it fails with
member-not-found when the identifier of the actor is absent from the stored
list,
with cannot-remove-admin when the stored record for that identifier holds
the administrator role (that guard runs first), and with cannot-remove-self
only when the stored record holds a non-administrator role. -/
theorem removeFamilyMember_self_never_succeeds (st : AuthState)
    (adminUser : FamilyMember) (gen : Gen)
    (hperm : hasPermission adminUser.role (fun p => p.canRemoveMembers) = true) :
    (removeFamilyMember st adminUser adminUser.id gen).2 = st ∧
    (removeFamilyMember st adminUser adminUser.id gen).1 =
      (match st.familyMembers.find? (fun m => m.id == adminUser.id) with
       | none => Except.error AuthErr.memberNotFound
       | some member =>
          Except.error (if member.role == "admin" then AuthErr.cannotRemoveAdmin
                        else AuthErr.cannotRemoveSelf)) := by
  unfold removeFamilyMember
  rw [hperm]
  simp only [Bool.not_true, Bool.false_eq_true, if_false]
  cases hfind : st.familyMembers.find? (fun m => m.id == adminUser.id) with
  | none => exact ⟨rfl, rfl⟩
  | some member =>
    by_cases hrole : member.role == "admin"
    · simp [hrole]
    · simp [hrole]

/-- Witness for the amended C2 at a concrete input: Alice, an administrator
with the remove capability, self-removal on the two-member family. -/
theorem removeFamilyMember_self_never_succeeds_witness :
    hasPermission exAlice.role (fun p => p.canRemoveMembers) = true ∧
    ((removeFamilyMember exState exAlice exAlice.id exGen).2 = exState ∧
     (removeFamilyMember exState exAlice exAlice.id exGen).1 =
       (match exState.familyMembers.find? (fun m => m.id == exAlice.id) with
        | none => Except.error AuthErr.memberNotFound
        | some member =>
           Except.error (if member.role == "admin" then AuthErr.cannotRemoveAdmin
                         else AuthErr.cannotRemoveSelf))) :=
  ⟨by decide, removeFamilyMember_self_never_succeeds exState exAlice exGen
    (by decide)⟩

/-- Helper: the length of the log after `logAdminAction` is the capped
successor of the old length. -/
theorem logAdminAction_length (actions : List AdminAction)
    (adminId operation : String) (targetMemberId : Option String)
    (details : Option String) (actionId : String) (now : Nat) :
    (logAdminAction actions adminId operation targetMemberId details actionId
      now).length = min (actions.length + 1) 100 := by
  unfold logAdminAction
  simp only [List.length_append, List.length_cons, List.length_nil]
  split
  · next h =>
    simp only [List.length_drop, List.length_append, List.length_cons,
      List.length_nil]
    omega
  · next h =>
    simp only [List.length_append, List.length_cons, List.length_nil]
    omega

/-- Helper: the newest entry of the log after `logAdminAction` is the entry
just appended. -/
theorem logAdminAction_getLast (actions : List AdminAction)
    (adminId operation : String) (targetMemberId : Option String)
    (details : Option String) (actionId : String) (now : Nat) :
    (logAdminAction actions adminId operation targetMemberId details actionId
      now).getLast? =
      some { id := actionId, adminId := adminId
             targetMemberId := targetMemberId, operation := operation
             details := details.getD "", timestamp := now } := by
  unfold logAdminAction
  simp only [List.length_append, List.length_cons, List.length_nil]
  split
  · next h =>
    rw [List.drop_append_of_le_length (by omega), List.getLast?_concat]
  · exact List.getLast?_concat _

/-- Counterexample to C7 as stated: the administrator Alice performs a
successful `editFamilyMember` on Bob with the empty partial update — every
field keeps its previous value and the stored member collection is
unchanged — yet an admin action record is still appended. -/
theorem editMember_no_change_still_logs :
    (editFamilyMember exState exAlice "bob-id" {} exGen).1 = Except.ok exBob ∧
    (editFamilyMember exState exAlice "bob-id" {} exGen).2.familyMembers =
      exState.familyMembers ∧
    (editFamilyMember exState exAlice "bob-id" {} exGen).2.adminActions.length =
      exState.adminActions.length + 1 := by
  exact ⟨by decide, by decide, by decide⟩

/-- C7 amended: every successful `editFamilyMember` call appends exactly one
admin action record — an `edit_member` entry, subject to the 100-entry cap —
whether or not any field of the target member actually changed. -/
theorem editMember_always_logs (st : AuthState) (adminUser : FamilyMember)
    (memberId : String) (updates : MemberUpdate) (gen : Gen)
    (h : (editFamilyMember st adminUser memberId updates gen).1.isOk = true) :
    (editFamilyMember st adminUser memberId updates gen).2.adminActions.length =
      min (st.adminActions.length + 1) 100 ∧
    ((editFamilyMember st adminUser memberId updates gen).2.adminActions.getLast?.map
      (fun x => x.operation)) = some "edit_member" := by
  by_cases hp : hasPermission adminUser.role (fun p => p.canEditMembers) = true
  · cases hfind : st.familyMembers.find? (fun m => m.id == memberId) with
    | none =>
      unfold editFamilyMember at h
      rw [hp] at h
      simp only [hfind, Bool.not_true, Bool.false_eq_true, if_false,
        Except.isOk, Except.toBool] at h
    | some member =>
      by_cases hguard : (roleTruthy updates && member.role == "admin" &&
          memberId != adminUser.id) = true
      · unfold editFamilyMember at h
        rw [hp] at h
        simp only [hfind, hguard, Bool.not_true, Bool.false_eq_true, if_false,
          if_true, Except.isOk, Except.toBool] at h
      · unfold editFamilyMember
        rw [hp]
        simp only [hfind, Bool.not_true, Bool.false_eq_true, if_false]
        rw [if_neg hguard]
        exact ⟨logAdminAction_length _ _ _ _ _ _ _, by
          rw [logAdminAction_getLast]
          rfl⟩
  · unfold editFamilyMember at h
    rw [Bool.not_eq_true] at hp
    rw [hp] at h
    simp only [Bool.not_false, if_true, Except.isOk, Except.toBool] at h
    exact absurd h (by simp)

/-- Witness for the amended C7: the successful no-change edit of Bob by
Alice. -/
theorem editMember_always_logs_witness :
    (editFamilyMember exState exAlice "bob-id" {} exGen).1.isOk = true ∧
    ((editFamilyMember exState exAlice "bob-id" {} exGen).2.adminActions.length =
       min (exState.adminActions.length + 1) 100 ∧
     ((editFamilyMember exState exAlice "bob-id"
         {} exGen).2.adminActions.getLast?.map (fun x => x.operation)) =
       some "edit_member") :=
  ⟨by decide, editMember_always_logs exState exAlice "bob-id" {} exGen
    (by decide)⟩

/-- C8, the code evaluated at the failing input: the message constructed and
persisted by `ChatScreen.sendMessage` for Alice sending `"hi"` to `bob-id`
carries no `status` key at all (and no `isEncrypted` key), although the
declared `Message` interface requires a delivery status and the claim says
the stored status is `sent`; the message is still appended unchanged to
the end of the stored collection. -/
theorem sendMessage_stores_no_status :
    (sendMessage [] (some exAlice) "bob-id" none "hi" "m1" 5).1 = some exMsg ∧
    exMsg.status = none ∧
    exMsg.isEncrypted = none ∧
    (sendMessage [] (some exAlice) "bob-id" none "hi" "m1" 5).2 = [exMsg] := by
  exact ⟨by decide, by decide, by decide, by decide⟩

/-- C6: `createFamily` on empty storage followed by `authenticateFamilyMember`
with the same code and name succeeds and yields a member with the identifier
of the member `createFamily` created, and the member collection still holds
exactly one member. -/
theorem createFamily_then_authenticate (code name : String) (g1 g2 : Gen) :
    ∃ m1 m2 : FamilyMember,
      (createFamily emptyState code name g1).1 = Except.ok m1 ∧
      (authenticateFamilyMember (createFamily emptyState code name g1).2
        code name g2).1 = some m2 ∧
      m2.id = m1.id ∧
      (authenticateFamilyMember (createFamily emptyState code name g1).2
        code name g2).2.familyMembers.length = 1 := by
  refine ⟨{ id := g1.userId, name := name, isOnline := true, lastSeen := g1.now
            deviceId := g1.deviceId, role := "admin", joinedAt := g1.now
            isActive := true, permissions := getRolePermissions "admin" },
          { id := g1.userId, name := name, isOnline := true, lastSeen := g2.now
            deviceId := g1.deviceId, role := "admin", joinedAt := g1.now
            isActive := true, permissions := getRolePermissions "admin" },
          rfl, ?_, rfl, ?_⟩ <;>
    simp [createFamily, authenticateFamilyMember, emptyState, updateFirstByName]

/-- Helper: marking the first name match online with a fresh last-seen does
not touch the role or permission set of any member, so the denormalization
invariant survives. -/
theorem permsConsistent_updateFirstByName (memberName : String) (now : Nat) :
    ∀ l : List FamilyMember, permsConsistent l →
      permsConsistent (updateFirstByName memberName now l).2 := by
  intro l
  induction l with
  | nil =>
    intro _ m hm
    simp [updateFirstByName] at hm
  | cons x rest ih =>
    intro h
    have hx := h x (by simp)
    have hrest : permsConsistent rest := fun m hm => h m (by simp [hm])
    simp only [updateFirstByName]
    split
    · intro m hm
      rcases List.mem_cons.mp hm with rfl | hmr
      · exact hx
      · exact hrest m hmr
    · intro m hm
      rcases List.mem_cons.mp hm with rfl | hmr
      · exact hx
      · exact ih hrest m hmr

/-- Helper: appending a member whose permission set is the canonical mapping
for its role preserves the denormalization invariant. -/
theorem permsConsistent_append (l : List FamilyMember) (nm : FamilyMember)
    (h : permsConsistent l) (hnm : nm.permissions = getRolePermissions nm.role) :
    permsConsistent (l ++ [nm]) := by
  intro m hm
  rcases List.mem_append.mp hm with hl | hr
  · exact h m hl
  · rw [List.mem_singleton] at hr
    subst hr
    exact hnm

/-- Helper: replacing the first id match by a member whose permission set is
the canonical mapping for its role preserves the denormalization invariant. -/
theorem permsConsistent_setFirstById (memberId : String) (nm : FamilyMember)
    (hnm : nm.permissions = getRolePermissions nm.role) :
    ∀ l : List FamilyMember, permsConsistent l →
      permsConsistent (setFirstById memberId nm l) := by
  intro l
  induction l with
  | nil =>
    intro _ m hm
    simp [setFirstById] at hm
  | cons x rest ih =>
    intro h
    have hx := h x (by simp)
    have hrest : permsConsistent rest := fun m hm => h m (by simp [hm])
    simp only [setFirstById]
    split
    · intro m hm
      rcases List.mem_cons.mp hm with rfl | hmr
      · exact hnm
      · exact hrest m hmr
    · intro m hm
      rcases List.mem_cons.mp hm with rfl | hmr
      · exact hx
      · exact ih hrest m hmr

/-- C3: when the permission set of every stored member equals the canonical
mapping for its role, each of `authenticateFamilyMember`, `createFamily`,
`addFamilyMember`, `editFamilyMember` and `changeMemberRole` leaves a member
collection that still satisfies the invariant — none of the operations can
make the stored permissions drift from `getRolePermissions` of the current
role. (The role value of a partial update is constrained away from the empty
string, the one string the `FamilyRole` union excludes that JavaScript
truthiness would treat like an absent key.) -/
theorem stored_permissions_match_role (st : AuthState) (adminUser : FamilyMember)
    (code name memberName memberId newRole addRole : String)
    (email phone : Option String) (updates : MemberUpdate) (gen : Gen)
    (hst : permsConsistent st.familyMembers)
    (hupd : updates.role ≠ some "") :
    permsConsistent (authenticateFamilyMember st code name gen).2.familyMembers ∧
    permsConsistent (createFamily st code name gen).2.familyMembers ∧
    permsConsistent
      (addFamilyMember st adminUser memberName addRole email phone
        gen).2.familyMembers ∧
    permsConsistent
      (editFamilyMember st adminUser memberId updates gen).2.familyMembers ∧
    permsConsistent
      (changeMemberRole st adminUser memberId newRole gen).2.familyMembers := by
  refine ⟨?_, ?_, ?_, ?_, ?_⟩
  · -- authenticateFamilyMember
    by_cases hc : st.familyCode ≠ some code
    · simp only [authenticateFamilyMember, if_pos hc]
      exact hst
    · simp only [authenticateFamilyMember, if_neg hc]
      cases hfound : (updateFirstByName name gen.now st.familyMembers).1 with
      | some u =>
        simp only [hfound]
        exact permsConsistent_updateFirstByName name gen.now st.familyMembers hst
      | none =>
        simp only [hfound]
        exact permsConsistent_append _ _ hst rfl
  · -- createFamily
    cases hfc : st.familyCode with
    | some c =>
      simp only [createFamily, hfc]
      exact hst
    | none =>
      simp only [createFamily, hfc]
      intro m hm
      rw [List.mem_singleton] at hm
      subst hm
      rfl
  · -- addFamilyMember
    by_cases hp : hasPermission adminUser.role (fun p => p.canAddMembers) = true
    · by_cases hdup : (st.familyMembers.find?
          (fun m => m.name.toLower == memberName.toLower)).isSome = true
      · simp only [addFamilyMember, hp, hdup, Bool.not_true, Bool.false_eq_true,
          if_false, if_true]
        exact hst
      · simp only [addFamilyMember, hp, Bool.not_true, Bool.false_eq_true,
          if_false]
        rw [if_neg hdup]
        exact permsConsistent_append _ _ hst rfl
    · rw [Bool.not_eq_true] at hp
      simp only [addFamilyMember, hp, Bool.not_false, if_true]
      exact hst
  · -- editFamilyMember
    by_cases hp : hasPermission adminUser.role (fun p => p.canEditMembers) = true
    · cases hfind : st.familyMembers.find? (fun m => m.id == memberId) with
      | none =>
        simp only [editFamilyMember, hp, hfind, Bool.not_true,
          Bool.false_eq_true, if_false]
        exact hst
      | some member =>
        by_cases hguard : (roleTruthy updates && member.role == "admin" &&
            memberId != adminUser.id) = true
        · simp only [editFamilyMember, hp, hfind, hguard, Bool.not_true,
            Bool.false_eq_true, if_false, if_true]
          exact hst
        · simp only [editFamilyMember, hp, hfind, Bool.not_true,
            Bool.false_eq_true, if_false]
          rw [if_neg hguard]
          refine permsConsistent_setFirstById memberId _ ?_ st.familyMembers hst
          cases hur : updates.role with
          | some r =>
            have hr : r ≠ "" := by
              intro hcontra
              exact hupd (by rw [hur, hcontra])
            have htruthy : roleTruthy updates = true := by
              simp [roleTruthy, hur, hr]
            simp [roleTruthy, hur, hr, applyUpdate]
          | none =>
            have htruthy : roleTruthy updates = false := by
              simp [roleTruthy, hur]
            have hmem := List.mem_of_find?_eq_some hfind
            simp [roleTruthy, hur, applyUpdate]
            exact hst member hmem
    · rw [Bool.not_eq_true] at hp
      simp only [editFamilyMember, hp, Bool.not_false, if_true]
      exact hst
  · -- changeMemberRole
    by_cases hp : hasPermission adminUser.role (fun p => p.canEditMembers) = true
    · cases hfind : st.familyMembers.find? (fun m => m.id == memberId) with
      | none =>
        simp only [changeMemberRole, hp, hfind, Bool.not_true,
          Bool.false_eq_true, if_false]
        exact hst
      | some member =>
        by_cases hrole : (member.role == "admin") = true
        · simp only [changeMemberRole, hp, hfind, hrole, Bool.not_true,
            Bool.false_eq_true, if_false, if_true]
          exact hst
        · simp only [changeMemberRole, hp, hfind, Bool.not_true,
            Bool.false_eq_true, if_false]
          rw [if_neg hrole]
          exact permsConsistent_setFirstById memberId _ rfl st.familyMembers hst
    · rw [Bool.not_eq_true] at hp
      simp only [changeMemberRole, hp, Bool.not_false, if_true]
      exact hst

/-- Witness for C3: the consistent two-member family of the example scenario,
with concrete arguments for all five operations and the empty partial
update. -/
theorem stored_permissions_match_role_witness :
    permsConsistent exState.familyMembers ∧
    ({} : MemberUpdate).role ≠ some "" ∧
    (permsConsistent
       (authenticateFamilyMember exState "FAM123" "Alice" exGen).2.familyMembers ∧
     permsConsistent (createFamily exState "FAM123" "Alice" exGen).2.familyMembers ∧
     permsConsistent
       (addFamilyMember exState exAlice "Carol" "parent" none none
         exGen).2.familyMembers ∧
     permsConsistent
       (editFamilyMember exState exAlice "bob-id" {} exGen).2.familyMembers ∧
     permsConsistent
       (changeMemberRole exState exAlice "bob-id" "grandparent"
         exGen).2.familyMembers) :=
  ⟨by unfold permsConsistent; decide, by decide,
   stored_permissions_match_role exState exAlice "FAM123" "Alice" "Carol"
     "bob-id" "grandparent" "parent" none none {} exGen
     (by unfold permsConsistent; decide) (by decide)⟩

end FamilyTalks
